import Mathlib

structure UserApp where
  id : String
  userId : String
  html : String
  css : String
  js : String
  backendCode : Option String
  createdAt : Nat
  expiresAt : Nat
deriving Repr, DecidableEq

/-- One value of the `apps` map: the allocated port and the app data.
The `server : Server` handle of the source has no observable state in
this model beyond being closed on cleanup, so it is omitted. -/
structure AppEntry where
  port : Nat
  app : UserApp
deriving Repr, DecidableEq

/-- Models `Map.get` on an insertion-ordered association list. -/
def mapGet {α : Type} (m : List (String × α)) (k : String) : Option α :=
  (m.find? (fun kv => kv.1 == k)).map (fun kv => kv.2)

/-- Models `Map.set`: it updates the existing key in place (keeping its insertion
position, as JavaScript maps do) or appends a fresh key at the end. -/
def mapSet {α : Type} (m : List (String × α)) (k : String) (v : α) :
    List (String × α) :=
  match m with
  | [] => [(k, v)]
  | kv :: rest => if kv.1 == k then (k, v) :: rest else kv :: mapSet rest k v

/-- Models `Map.delete`: it removes the entry with the given key.  On lists that
represent a JavaScript map (keys unique) this is exactly removal of the
one matching entry. -/
def mapDelete {α : Type} (m : List (String × α)) (k : String) :
    List (String × α) :=
  m.filter (fun kv => !(kv.1 == k))

/-- The mutable state of one `AppManager` object together with the
pending expiry timers armed by `createAppServer`. -/
structure ManagerState where
  apps : List (String × AppEntry)
  usedPorts : Finset Nat
  maxConcurrentApps : Nat
  timers : List (String × Nat)
deriving DecidableEq

/-- A freshly constructed `AppManager` (empty maps, configured maximum). -/
def initState (maxApps : Nat) : ManagerState :=
  { apps := [], usedPorts := ∅, maxConcurrentApps := maxApps, timers := [] }

/-- The loop body of `findOldestAppId`: scan the map in iteration
(insertion) order, keeping the first entry whose `createdAt` is strictly
below the running minimum, which starts at `Date.now()`. -/
def findOldestGo : List (String × AppEntry) → Option String → Nat → Option String
  | [], best, _ => best
  | (k, e) :: rest, best, bestTime =>
    if e.app.createdAt < bestTime then findOldestGo rest (some k) e.app.createdAt
    else findOldestGo rest best bestTime

/-- Embeds `AppManager.findOldestAppId`, with `now` standing for the
`Date.now()` used to initialise `oldestTime`. -/
def findOldestAppId (apps : List (String × AppEntry)) (now : Nat) : Option String :=
  findOldestGo apps none now

/-- Models the `usedPorts.delete(app.port)` step of `AppManager.cleanupAppServer`. -/
def releasePort (used : Finset Nat) (p : Nat) : Finset Nat :=
  used.erase p

/-- Embeds `AppManager.cleanupAppServer`: if the id is resident, close the
server, release the port, and drop the map entry; otherwise do nothing.
No pending timer is touched (the source keeps no handle to cancel). -/
def cleanupAppServer (s : ManagerState) (appId : String) : ManagerState :=
  match mapGet s.apps appId with
  | none => s
  | some e =>
    { s with
      apps := mapDelete s.apps appId
      usedPorts := releasePort s.usedPorts e.port }

/-- The port-scan loop of `findAvailablePort`, by remaining range size:
skip ports tracked in `usedPorts`, then bind-probe (oracle `probe`). -/
def findAvailablePortGo (used : Finset Nat) (probe : Nat → Bool) :
    Nat → Nat → Option Nat
  | _, 0 => none
  | start, n + 1 =>
    if start ∈ used then findAvailablePortGo used probe (start + 1) n
    else if probe start then some start
    else findAvailablePortGo used probe (start + 1) n

/-- Embeds `AppManager.findAvailablePort(start, stop)`: the first port in the range
not tracked in `usedPorts` that passes the OS bind probe; throws
`No available ports` when the range is exhausted. -/
def findAvailablePort (used : Finset Nat) (probe : Nat → Bool)
    (start stop : Nat) : Except String Nat :=
  match findAvailablePortGo used probe start (stop + 1 - start) with
  | some p => Except.ok p
  | none => Except.error "No available ports"

/-- The admission prologue of `createAppServer`: at or above the
configured maximum, evict the instance chosen by `findOldestAppId`
(when it finds one). -/
def admissionStep (s : ManagerState) (now : Nat) : ManagerState :=
  if s.maxConcurrentApps ≤ s.apps.length then
    match findOldestAppId s.apps now with
    | some oldest => cleanupAppServer s oldest
    | none => s
  else s

/-- The success continuation of `server.listen` in `createAppServer`:
record the instance, track the port, and arm the expiry `setTimeout`
for `max(expiresAt - now, 0)` milliseconds from `now` (the clamp is
naturally `Nat` subtraction). -/
def registerApp (s : ManagerState) (appId : String) (appData : UserApp)
    (now port : Nat) : ManagerState :=
  { apps := mapSet s.apps appId { port := port, app := appData }
    usedPorts := insert port s.usedPorts
    maxConcurrentApps := s.maxConcurrentApps
    timers := s.timers ++ [(appId, now + (appData.expiresAt - now))] }

/-- Embeds `AppManager.createAppServer`: admission/eviction, port scan over the
configured range 10001..10100, then launch (oracle `launch` models the
outcome of `server.listen`).  Returns the promise outcome paired with
the state of the manager after the call; a failure leaves the state as
it was after the admission step. -/
def createAppServer (s : ManagerState) (appId : String) (appData : UserApp)
    (now : Nat) (probe : Nat → Bool) (launch : Nat → Except String Unit) :
    Except String (Nat × String) × ManagerState :=
  match findAvailablePort (admissionStep s now).usedPorts probe 10001 10100 with
  | Except.error e => (Except.error e, admissionStep s now)
  | Except.ok port =>
    match launch port with
    | Except.error cause => (Except.error cause, admissionStep s now)
    | Except.ok _ =>
      (Except.ok (port, "http://localhost:" ++ toString port),
       registerApp (admissionStep s now) appId appData now port)

/-- Embeds `AppManager.getAppPort`, that is `this.apps.get(appId)?.port || null`
(a port of 0 would be falsy, hence the explicit zero test). -/
def getAppPort (s : ManagerState) (appId : String) : Option Nat :=
  match mapGet s.apps appId with
  | none => none
  | some e => if e.port = 0 then none else some e.port

/-- One pending `setTimeout` firing: the timer leaves the pending set
and its callback runs `cleanupAppServer(appId)`. -/
def fireTimer (s : ManagerState) (t : String × Nat) : ManagerState :=
  if t ∈ s.timers then
    { cleanupAppServer s t.1 with timers := s.timers.erase t }
  else s

/-- Embeds `AppManager.getActiveAppCount`. -/
def getActiveAppCount (s : ManagerState) : Nat :=
  s.apps.length

/-- Embeds `memoryStore.get` from the server: a key-value store with absolute
expiry timestamps; a missing or expired key reads as `none`. -/
def memoryGet (store : List (String × (UserApp × Nat))) (key : String)
    (now : Nat) : Option UserApp :=
  match store.find? (fun kv => kv.1 == key) with
  | none => none
  | some kv => if kv.2.2 < now then none else some kv.2.1

/-- The response decided by the `/preview/:appId` route. -/
inductive RouteOutcome where
  | proxy (port : Nat)
  | notFound
  | redirectTo (url : String)
  | serverError
deriving Repr, DecidableEq

/-- Result of one inbound preview request: the outcome, the manager
state afterwards, and (ghost instrumentation) how many rehydration
attempts, i.e. `createAppServer` calls, the request made. -/
structure RouteResult where
  outcome : RouteOutcome
  state : ManagerState
  rehydrations : Nat
deriving DecidableEq

/-- The `/preview/:appId` route handler: on a registry hit, proxy to the
port; on a miss, read `app:{appId}` from storage; absent or expired
data yields a 404; otherwise perform the full creation sequence once
and answer with a redirect to the original URL (the single retry),
or a 500 if the creation sequence failed. -/
def previewRoute (s : ManagerState) (appId : String)
    (store : List (String × (UserApp × Nat))) (now : Nat)
    (probe : Nat → Bool) (launch : Nat → Except String Unit)
    (originalUrl : String) : RouteResult :=
  match getAppPort s appId with
  | some port => { outcome := RouteOutcome.proxy port, state := s, rehydrations := 0 }
  | none =>
    match memoryGet store ("app:" ++ appId) now with
    | none => { outcome := RouteOutcome.notFound, state := s, rehydrations := 0 }
    | some appData =>
      match createAppServer s appId appData now probe launch with
      | (Except.ok _, s2) =>
        { outcome := RouteOutcome.redirectTo originalUrl, state := s2, rehydrations := 1 }
      | (Except.error _, s2) =>
        { outcome := RouteOutcome.serverError, state := s2, rehydrations := 1 }

/-- One file handed to the hosted sandbox SDK (`{ content: string }`). -/
structure SandboxFile where
  content : String
deriving Repr, DecidableEq

/-- The `package.json` content built by `createStackBlitzPreview`
(`JSON.stringify` of the manifest, two-space indentation). -/
def packageJsonContent (projectId : String) : String :=
  "\x7b\n  \"name\": \"" ++ projectId ++ "\",\n  \"version\": \"1.0.0\",\n  \"scripts\": \x7b\n    \"start\": \"serve .\"\n  \x7d,\n  \"dependencies\": \x7b\n    \"serve\": \"^14.0.0\"\n  \x7d\n\x7d"

/-- The base `sandboxFiles` record (JavaScript `||` falls back on the
default exactly when the string is empty, the only falsy string). -/
def baseSandboxFiles (html css js projectId : String) :
    List (String × SandboxFile) :=
  [("index.html", ⟨if html = "" then "<div id=\"root\"></div>" else html⟩),
   ("style.css", ⟨css⟩),
   ("index.js", ⟨if js = "" then "console.log(\"Preview ready ✅\");" else js⟩),
   ("package.json", ⟨packageJsonContent projectId⟩)]

/-- The `sandboxFiles` map after overlaying the caller-supplied extra `files`
(`Object.entries(files).forEach` assignment order). -/
def sandboxFilesFor (html css js projectId : String)
    (files : List (String × String)) : List (String × SandboxFile) :=
  files.foldl (fun acc kv => mapSet acc kv.1 ⟨kv.2⟩)
    (baseSandboxFiles html css js projectId)

/-- The embed markup built around a preview URL. -/
def embedHtmlFor (url : String) : String :=
  "<iframe src=\"" ++ url ++
    "\" style=\"width:100%; height:600px; border:0; border-radius: 8px; background: white; box-shadow: 0 4px 12px rgba(0,0,0,0.1);\" sandbox=\"allow-forms allow-modals allow-popups allow-presentation allow-same-origin allow-scripts allow-downloads allow-storage-access-by-user-activation\" allow=\"accelerometer; camera; encrypted-media; geolocation; gyroscope; hid; microphone; midi; payment; usb; vr; xr-spatial-tracking\" loading=\"lazy\" title=\"AI Live Preview\"></iframe>"

/-- The result object `createStackBlitzPreview` resolves with; fields
absent on one branch in the source are `Option`s here. -/
structure PreviewResult where
  success : Bool
  previewUrl : String
  embedHtml : String
  error : Option String
  projectId : Option String
  sandboxId : Option String
deriving Repr, DecidableEq

/-- Embeds `createStackBlitzPreview`: everything inside the single `try` block.
`projectId` stands for the random `preview-{uuid8}` name and `sdkCreate`
for `csb.sandboxes.create`, which may throw (`Except.error`) or return a
sandbox whose `id` field may be missing (`Option`).  A missing id raises
and is caught by the same `catch`, which converts every failure into a
returned object with `success: false` and empty URL fields. -/
def createStackBlitzPreview (html css js : String)
    (files : List (String × String)) (projectId : String)
    (sdkCreate : List (String × SandboxFile) → Except String (Option String)) :
    PreviewResult :=
  match sdkCreate (sandboxFilesFor html css js projectId files) with
  | Except.error e =>
    { success := false, previewUrl := "", embedHtml := "",
      error := some e, projectId := none, sandboxId := none }
  | Except.ok none =>
    { success := false, previewUrl := "", embedHtml := "",
      error := some "Failed to get sandbox ID from CodeSandbox",
      projectId := none, sandboxId := none }
  | Except.ok (some sandboxId) =>
    let embedUrl := "https://codesandbox.io/embed/" ++ sandboxId ++
      "?view=preview&hidenavigation=1&fontsize=12&codemirror=1"
    { success := true, previewUrl := embedUrl,
      embedHtml := embedHtmlFor embedUrl, error := none,
      projectId := some projectId, sandboxId := some sandboxId }

/-- A minimal app definition used in concrete scenarios. -/
def uApp (name : String) (created : Nat) : UserApp :=
  { id := name, userId := "u", html := "", css := "", js := "",
    backendCode := none, createdAt := created, expiresAt := 1000 }

/-- A bind probe that reports every port free. -/
def probeFree : Nat → Bool := fun _ => true

/-- A launch oracle modelling a `server.listen` that always succeeds. -/
def launchOk : Nat → Except String Unit := fun _ => Except.ok ()

/-- A manager at full capacity (two of two slots) whose two instances
share the same creation timestamp; identifier order would pick `a`,
insertion order picks `b`. -/
def c3State : ManagerState :=
  { apps := [("b", ⟨10001, uApp "b" 5⟩), ("a", ⟨10002, uApp "a" 5⟩)],
    usedPorts := {10001, 10002}, maxConcurrentApps := 2, timers := [] }

/-- Concrete registry for the C3 witness: `y` is the strictly oldest. -/
def c3WitnessApps : List (String × AppEntry) :=
  [("x", ⟨10001, uApp "x" 7⟩), ("y", ⟨10002, uApp "y" 3⟩)]

/-- A launch oracle modelling a `server.listen` that always fails. -/
def launchBoom : Nat → Except String Unit :=
  fun _ => Except.error "listen failure"

/-- Storage contents for the C7 witness. -/
def c7Store : List (String × (UserApp × Nat)) :=
  [("app:z", (uApp "z" 0, 500))]

/-- The manager state after the witness rehydration. -/
def c7NewState : ManagerState :=
  (createAppServer (initState 5) "z" (uApp "z" 0) 100 probeFree launchOk).2

/-- States reachable from a fresh manager by any interleaving of
`createAppServer` calls (whose admissibility is constrained by `pre`),
`cleanupAppServer` calls, and expiry-timer firings. -/
inductive ReachableP (pre : ManagerState → String → UserApp → Nat → Prop) :
    ManagerState → Prop where
  | init (maxApps : Nat) : ReachableP pre (initState maxApps)
  | create (s : ManagerState) (appId : String) (a : UserApp) (now : Nat)
      (probe : Nat → Bool) (launch : Nat → Except String Unit)
      (hpre : pre s appId a now) (hs : ReachableP pre s) :
      ReachableP pre ((createAppServer s appId a now probe launch).2)
  | cleanup (s : ManagerState) (appId : String) (hs : ReachableP pre s) :
      ReachableP pre (cleanupAppServer s appId)
  | fire (s : ManagerState) (t : String × Nat) (hs : ReachableP pre s) :
      ReachableP pre (fireTimer s t)

/-- No constraint on creations: every call the class interface allows. -/
def anyCreate : ManagerState → String → UserApp → Nat → Prop :=
  fun _ _ _ _ => True

/-- Creations performed strictly later than the creation timestamps of
all currently registered instances (millisecond clock has advanced). -/
def strictlyOlderResidents : ManagerState → String → UserApp → Nat → Prop :=
  fun s _ _ now => ∀ kv ∈ s.apps, kv.2.app.createdAt < now

/-- Creations that only target identifiers not currently resident
(which is how both server routes invoke `createAppServer`). -/
def freshIdOnly : ManagerState → String → UserApp → Nat → Prop :=
  fun s appId _ _ => mapGet s.apps appId = none

/-- One app admitted into a manager capped at one instance. -/
def c1StateA : ManagerState :=
  (createAppServer (initState 1) "a" (uApp "a" 100) 100 probeFree launchOk).2

/-- A second app admitted in the same millisecond: `findOldestAppId`
starts its scan at `oldestTime = now` with a strict comparison, finds
no instance strictly older, and evicts nobody. -/
def c1StateB : ManagerState :=
  (createAppServer c1StateA "b" (uApp "b" 100) 100 probeFree launchOk).2

/-- One app `a` admitted into a fresh manager (port 10001). -/
def c2StateA : ManagerState :=
  (createAppServer (initState 5) "a" (uApp "a" 100) 100 probeFree launchOk).2

/-- Result of `createAppServer` invoked again for the already-resident `a`:
`Map.set` overwrites the entry with the new port 10002, but the old
port 10001 is never deleted from `usedPorts`. -/
def c2StateB : ManagerState :=
  (createAppServer c2StateA "a" (uApp "a" 100) 100 probeFree launchOk).2

/-- One app admitted at time 100 with expiry 1000: its expiry timer is
armed to fire at 1000. -/
def c6State : ManagerState :=
  (createAppServer (initState 5) "x" (uApp "x" 100) 100 probeFree launchOk).2

/-- A strictly-older-resident creation into a manager capped at 2. -/
def c1WitnessState : ManagerState :=
  (createAppServer (initState 2) "a" (uApp "a" 50) 100 probeFree launchOk).2

/-- No two entries of the apps map share a key. -/
def keysPairwise (apps : List (String × AppEntry)) : Prop :=
  apps.Pairwise (fun x y => x.1 ≠ y.1)

/-- No two entries of the apps map hold the same port. -/
def portsPairwise (apps : List (String × AppEntry)) : Prop :=
  apps.Pairwise (fun x y => x.2.port ≠ y.2.port)

/-- The port bookkeeping invariant: keys are unique, a port is tracked
in `usedPorts` exactly when some registered instance holds it, and no
two registered instances hold the same port. -/
def PortInvariant (s : ManagerState) : Prop :=
  keysPairwise s.apps ∧
  (∀ p : Nat, p ∈ s.usedPorts ↔ ∃ kv ∈ s.apps, kv.2.port = p) ∧
  portsPairwise s.apps

/-- One fresh-identifier creation into an empty manager. -/
def c2WitnessState : ManagerState :=
  (createAppServer (initState 5) "a" (uApp "a" 100) 100 probeFree launchOk).2

/-! ### Theorems -/

theorem findAvailablePortGo_some_spec (used : Finset Nat) (probe : Nat → Bool) :
    ∀ (n start p : Nat), findAvailablePortGo used probe start n = some p →
      start ≤ p ∧ p < start + n ∧ p ∉ used ∧ probe p = true := by
  intro n
  induction n with
  | zero => intro start p h; simp [findAvailablePortGo] at h
  | succ n ih =>
    intro start p h
    unfold findAvailablePortGo at h
    by_cases hu : start ∈ used
    · simp only [if_pos hu] at h
      obtain ⟨h1, h2, h3, h4⟩ := ih (start + 1) p h
      exact ⟨by omega, by omega, h3, h4⟩
    · simp only [if_neg hu] at h
      by_cases hp : probe start = true
      · simp only [if_pos hp] at h
        cases h
        exact ⟨Nat.le_refl _, by omega, hu, hp⟩
      · simp only [if_neg hp] at h
        obtain ⟨h1, h2, h3, h4⟩ := ih (start + 1) p h
        exact ⟨by omega, by omega, h3, h4⟩

theorem findAvailablePortGo_none_spec (used : Finset Nat) (probe : Nat → Bool) :
    ∀ (n start : Nat),
      (∀ q, start ≤ q → q < start + n → q ∈ used ∨ probe q = false) →
      findAvailablePortGo used probe start n = none := by
  intro n
  induction n with
  | zero => intro start _; rfl
  | succ n ih =>
    intro start hall
    unfold findAvailablePortGo
    by_cases hu : start ∈ used
    · simp only [if_pos hu]
      exact ih (start + 1) (fun q h1 h2 => hall q (by omega) (by omega))
    · simp only [if_neg hu]
      have hstart := hall start (Nat.le_refl _) (by omega)
      have hp : probe start = false := by
        rcases hstart with h | h
        · exact absurd h hu
        · exact h
      simp only [hp, if_neg Bool.false_ne_true]
      exact ih (start + 1) (fun q h1 h2 => hall q (by omega) (by omega))

theorem findAvailablePort_ok_spec (used : Finset Nat) (probe : Nat → Bool)
    (start stop p : Nat)
    (h : findAvailablePort used probe start stop = Except.ok p) :
    start ≤ p ∧ p < start + (stop + 1 - start) ∧ p ∉ used ∧ probe p = true := by
  unfold findAvailablePort at h
  cases hgo : findAvailablePortGo used probe start (stop + 1 - start) with
  | none => rw [hgo] at h; cases h
  | some q =>
    rw [hgo] at h
    cases h
    exact findAvailablePortGo_some_spec used probe _ start p hgo

/-- Claim C4: a successful `findAvailablePort` over the configured range
10001..10100 returns a port inside the bounds that is not tracked in
`usedPorts` and passed the OS bind probe; when every port in the range
is tracked in-use or fails the probe, the call fails with the
no-ports-available error instead of returning a port. -/
theorem c4_find_available_port (used : Finset Nat) (probe : Nat → Bool) :
    (∀ p : Nat, findAvailablePort used probe 10001 10100 = Except.ok p →
      10001 ≤ p ∧ p ≤ 10100 ∧ p ∉ used ∧ probe p = true) ∧
    ((∀ q : Nat, 10001 ≤ q → q ≤ 10100 → q ∈ used ∨ probe q = false) →
      findAvailablePort used probe 10001 10100 =
        Except.error "No available ports") := by
  constructor
  · intro p h
    obtain ⟨h1, h2, h3, h4⟩ := findAvailablePort_ok_spec used probe 10001 10100 p h
    exact ⟨h1, by omega, h3, h4⟩
  · intro hall
    unfold findAvailablePort
    rw [findAvailablePortGo_none_spec used probe _ 10001
      (fun q hq1 hq2 => hall q hq1 (by omega))]

theorem c4_find_available_port_witness :
    (10001 ≤ 10003 ∧ 10003 ≤ 10100 ∧ 10003 ∉ ({10001} : Finset Nat) ∧
      (fun q => q == 10003) 10003 = true) ∧
    findAvailablePort ({10001} : Finset Nat) (fun _ => false) 10001 10100 =
      Except.error "No available ports" :=
  ⟨(c4_find_available_port ({10001} : Finset Nat) (fun q => q == 10003)).1
      10003 rfl,
   (c4_find_available_port ({10001} : Finset Nat) (fun _ => false)).2
      (fun _ _ _ => Or.inr rfl)⟩

/-- Claim C9: reserving a port (a successful `findAvailablePort` call)
immediately followed by releasing the returned port (the
`usedPorts.delete` step of `cleanupAppServer`) leaves the set of in-use
ports exactly as it was before the pair of calls. -/
theorem c9_reserve_release_roundtrip (used : Finset Nat) (probe : Nat → Bool)
    (p : Nat) (h : findAvailablePort used probe 10001 10100 = Except.ok p) :
    releasePort used p = used := by
  obtain ⟨_, _, hnot, _⟩ := findAvailablePort_ok_spec used probe 10001 10100 p h
  exact Finset.erase_eq_of_not_mem hnot

theorem c9_reserve_release_roundtrip_witness :
    releasePort ({10007} : Finset Nat) 10001 = ({10007} : Finset Nat) :=
  c9_reserve_release_roundtrip ({10007} : Finset Nat) (fun _ => true) 10001
    rfl

theorem mapGet_mapDelete_self {α : Type} (m : List (String × α)) (k : String) :
    mapGet (mapDelete m k) k = none := by
  unfold mapGet mapDelete
  have hfind : (m.filter (fun kv => !(kv.1 == k))).find? (fun kv => kv.1 == k) = none := by
    apply List.find?_eq_none.mpr
    intro a ha
    have h2 := (List.mem_filter.mp ha).2
    simp only [Bool.not_eq_true', beq_eq_false_iff_ne, ne_eq] at h2
    simp only [beq_iff_eq]
    exact h2
  rw [hfind]
  rfl

theorem cleanup_of_not_resident (s : ManagerState) (appId : String)
    (h : mapGet s.apps appId = none) : cleanupAppServer s appId = s := by
  unfold cleanupAppServer
  rw [h]

theorem cleanup_mapGet_self (s : ManagerState) (appId : String) :
    mapGet (cleanupAppServer s appId).apps appId = none := by
  unfold cleanupAppServer
  cases h : mapGet s.apps appId with
  | none => exact h
  | some e => exact mapGet_mapDelete_self s.apps appId

/-- Claim C5: `cleanupAppServer` is idempotent — reclaiming an
identifier with no live instance leaves the whole manager state (apps,
usedPorts, timers) unchanged, and reclaiming the same identifier twice
performs exactly one teardown: the second call changes nothing, so the
port is not released twice. -/
theorem c5_cleanup_idempotent (s : ManagerState) (appId : String) :
    (mapGet s.apps appId = none → cleanupAppServer s appId = s) ∧
    cleanupAppServer (cleanupAppServer s appId) appId =
      cleanupAppServer s appId :=
  ⟨cleanup_of_not_resident s appId,
   cleanup_of_not_resident (cleanupAppServer s appId) appId
     (cleanup_mapGet_self s appId)⟩

theorem c5_cleanup_idempotent_witness :
    cleanupAppServer (initState 5) "a" = initState 5 ∧
    cleanupAppServer (cleanupAppServer (initState 5) "a") "a" =
      cleanupAppServer (initState 5) "a" :=
  ⟨(c5_cleanup_idempotent (initState 5) "a").1 rfl,
   (c5_cleanup_idempotent (initState 5) "a").2⟩

theorem findOldestGo_acc_isSome :
    ∀ (l : List (String × AppEntry)) (k0 : String) (bt : Nat),
      (findOldestGo l (some k0) bt).isSome = true := by
  intro l
  induction l with
  | nil => intro k0 bt; rfl
  | cons kv rest ih =>
    intro k0 bt
    obtain ⟨k1, e1⟩ := kv
    unfold findOldestGo
    by_cases hlt : e1.app.createdAt < bt
    · simp only [if_pos hlt]; exact ih k1 _
    · simp only [if_neg hlt]; exact ih k0 bt

theorem findOldestGo_acc_spec :
    ∀ (l : List (String × AppEntry)) (k0 : String) (bt : Nat) (k : String),
      findOldestGo l (some k0) bt = some k →
      (k = k0 ∧ ∀ kv ∈ l, bt ≤ kv.2.app.createdAt) ∨
      (∃ e l1 l2, l = l1 ++ (k, e) :: l2 ∧ e.app.createdAt < bt ∧
        (∀ kv ∈ l1, e.app.createdAt < kv.2.app.createdAt) ∧
        (∀ kv ∈ l2, e.app.createdAt ≤ kv.2.app.createdAt)) := by
  intro l
  induction l with
  | nil =>
    intro k0 bt k h
    cases h
    refine Or.inl ⟨rfl, ?_⟩
    intro kv hkv
    cases hkv
  | cons hd rest ih =>
    intro k0 bt k h
    obtain ⟨k1, e1⟩ := hd
    unfold findOldestGo at h
    by_cases hlt : e1.app.createdAt < bt
    · simp only [if_pos hlt] at h
      rcases ih k1 _ k h with ⟨hk, hall⟩ | ⟨e, l1, l2, heq, he, hl1, hl2⟩
      · subst hk
        refine Or.inr ⟨e1, [], rest, rfl, hlt, ?_, hall⟩
        intro kv hkv
        cases hkv
      · refine Or.inr ⟨e, (k1, e1) :: l1, l2, ?_, Nat.lt_trans he hlt, ?_, hl2⟩
        · rw [heq, List.cons_append]
        · intro kv hkv
          rcases List.mem_cons.mp hkv with hkv | hkv
          · subst hkv
            exact he
          · exact hl1 kv hkv
    · simp only [if_neg hlt] at h
      rcases ih k0 bt k h with ⟨hk, hall⟩ | ⟨e, l1, l2, heq, he, hl1, hl2⟩
      · refine Or.inl ⟨hk, ?_⟩
        intro kv hkv
        rcases List.mem_cons.mp hkv with hkv | hkv
        · subst hkv
          exact Nat.le_of_not_lt hlt
        · exact hall kv hkv
      · refine Or.inr ⟨e, (k1, e1) :: l1, l2, ?_, he, ?_, hl2⟩
        · rw [heq, List.cons_append]
        · intro kv hkv
          rcases List.mem_cons.mp hkv with hkv | hkv
          · subst hkv
            exact Nat.lt_of_lt_of_le he (Nat.le_of_not_lt hlt)
          · exact hl1 kv hkv

theorem findOldestAppId_some_spec :
    ∀ (l : List (String × AppEntry)) (now : Nat) (k : String),
      findOldestAppId l now = some k →
      ∃ e l1 l2, l = l1 ++ (k, e) :: l2 ∧ e.app.createdAt < now ∧
        (∀ kv ∈ l1, e.app.createdAt < kv.2.app.createdAt) ∧
        (∀ kv ∈ l2, e.app.createdAt ≤ kv.2.app.createdAt) := by
  intro l
  induction l with
  | nil => intro now k h; cases h
  | cons hd rest ih =>
    intro now k h
    obtain ⟨k1, e1⟩ := hd
    unfold findOldestAppId findOldestGo at h
    by_cases hlt : e1.app.createdAt < now
    · simp only [if_pos hlt] at h
      rcases findOldestGo_acc_spec rest k1 _ k h with ⟨hk, hall⟩ |
        ⟨e, l1, l2, heq, he, hl1, hl2⟩
      · subst hk
        refine ⟨e1, [], rest, rfl, hlt, ?_, hall⟩
        intro kv hkv
        cases hkv
      · refine ⟨e, (k1, e1) :: l1, l2, ?_, Nat.lt_trans he hlt, ?_, hl2⟩
        · rw [heq, List.cons_append]
        · intro kv hkv
          rcases List.mem_cons.mp hkv with hkv | hkv
          · subst hkv
            exact he
          · exact hl1 kv hkv
    · simp only [if_neg hlt] at h
      obtain ⟨e, l1, l2, heq, he, hl1, hl2⟩ := ih now k h
      refine ⟨e, (k1, e1) :: l1, l2, ?_, he, ?_, hl2⟩
      · rw [heq, List.cons_append]
      · intro kv hkv
        rcases List.mem_cons.mp hkv with hkv | hkv
        · subst hkv
          exact Nat.lt_of_lt_of_le he (Nat.le_of_not_lt hlt)
        · exact hl1 kv hkv

theorem findOldestAppId_none_iff (l : List (String × AppEntry)) (now : Nat) :
    findOldestAppId l now = none ↔ ∀ kv ∈ l, now ≤ kv.2.app.createdAt := by
  induction l generalizing now with
  | nil => simp [findOldestAppId, findOldestGo]
  | cons hd rest ih =>
    obtain ⟨k1, e1⟩ := hd
    unfold findOldestAppId findOldestGo
    by_cases hlt : e1.app.createdAt < now
    · simp only [if_pos hlt]
      constructor
      · intro h
        have hs := findOldestGo_acc_isSome rest k1 e1.app.createdAt
        rw [h] at hs
        cases hs
      · intro hall
        have h1 := hall (k1, e1) (List.mem_cons_self (k1, e1) rest)
        exact absurd hlt (Nat.not_lt_of_le h1)
    · simp only [if_neg hlt]
      rw [show findOldestGo rest none now = findOldestAppId rest now from rfl, ih]
      constructor
      · intro hall kv hkv
        rcases List.mem_cons.mp hkv with hkv | hkv
        · subst hkv
          exact Nat.le_of_not_lt hlt
        · exact hall kv hkv
      · intro hall kv hkv
        exact hall kv (List.mem_cons_of_mem _ hkv)

/-- Claim C3, counterexample: at capacity with two instances sharing the
smallest creation timestamp, the claim says the victim is the one with
the smallest identifier (`a`), but admitting `c` evicts `b` — the first
entry in registry insertion order — and `a` survives. -/
theorem c3_counterexample :
    c3State.maxConcurrentApps ≤ c3State.apps.length ∧
    (uApp "b" 5).createdAt = (uApp "a" 5).createdAt ∧
    "a" < "b" ∧
    findOldestAppId c3State.apps 10 = some "b" ∧
    mapGet ((createAppServer c3State "c" (uApp "c" 10) 10
      probeFree launchOk).2).apps "b" = none ∧
    mapGet ((createAppServer c3State "c" (uApp "c" 10) 10
      probeFree launchOk).2).apps "a" = some ⟨10002, uApp "a" 5⟩ := by
  refine ⟨by decide, by decide, by rw [String.lt_iff_toList_lt]; decide, rfl, rfl, rfl⟩

/-- Claim C3 as amended: when a victim is selected it is an instance
created strictly before the admission time whose creation timestamp is
minimal among all registered instances, and ties on that minimal
timestamp are broken by earliest insertion order in the registry (every
entry before the victim is strictly younger), not by identifier order;
when no registered instance is strictly older than the admission time,
no victim is selected at all. -/
theorem c3_victim_selection (apps : List (String × AppEntry)) (now : Nat) :
    (findOldestAppId apps now = none ↔
      ∀ kv ∈ apps, now ≤ kv.2.app.createdAt) ∧
    (∀ k, findOldestAppId apps now = some k →
      ∃ e l1 l2, apps = l1 ++ (k, e) :: l2 ∧ e.app.createdAt < now ∧
        (∀ kv ∈ l1, e.app.createdAt < kv.2.app.createdAt) ∧
        (∀ kv ∈ apps, e.app.createdAt ≤ kv.2.app.createdAt)) := by
  refine ⟨findOldestAppId_none_iff apps now, ?_⟩
  intro k h
  obtain ⟨e, l1, l2, heq, he, hl1, hl2⟩ := findOldestAppId_some_spec apps now k h
  refine ⟨e, l1, l2, heq, he, hl1, ?_⟩
  intro kv hkv
  rw [heq] at hkv
  rcases List.mem_append.mp hkv with hkv | hkv
  · exact Nat.le_of_lt (hl1 kv hkv)
  · rcases List.mem_cons.mp hkv with hkv | hkv
    · subst hkv
      exact Nat.le_refl _
    · exact hl2 kv hkv

theorem c3_victim_selection_witness :
    ∃ e l1 l2, c3WitnessApps = l1 ++ ("y", e) :: l2 ∧
      e.app.createdAt < 10 ∧
      (∀ kv ∈ l1, e.app.createdAt < kv.2.app.createdAt) ∧
      (∀ kv ∈ c3WitnessApps, e.app.createdAt ≤ kv.2.app.createdAt) :=
  (c3_victim_selection c3WitnessApps 10).2 "y" rfl

theorem mapGet_eq_none_iff {α : Type} (m : List (String × α)) (k : String) :
    mapGet m k = none ↔ ∀ kv ∈ m, kv.1 ≠ k := by
  unfold mapGet
  constructor
  · intro h kv hkv hk
    have hfind : m.find? (fun kv => kv.1 == k) = none := by
      cases hf : m.find? (fun kv => kv.1 == k) with
      | none => rfl
      | some x => rw [hf] at h; cases h
    have := List.find?_eq_none.mp hfind kv hkv
    simp only [beq_iff_eq] at this
    exact this hk
  · intro hall
    have hfind : m.find? (fun kv => kv.1 == k) = none := by
      apply List.find?_eq_none.mpr
      intro kv hkv
      simp only [beq_iff_eq]
      exact hall kv hkv
    rw [hfind]
    rfl

theorem cleanup_mapGet_none (s : ManagerState) (i k : String)
    (h : mapGet s.apps k = none) :
    mapGet (cleanupAppServer s i).apps k = none := by
  unfold cleanupAppServer
  cases hg : mapGet s.apps i with
  | none => exact h
  | some e =>
    apply (mapGet_eq_none_iff _ _).mpr
    intro kv hkv
    exact (mapGet_eq_none_iff _ _).mp h kv (List.mem_of_mem_filter hkv)

theorem admission_mapGet_none (s : ManagerState) (now : Nat) (k : String)
    (h : mapGet s.apps k = none) :
    mapGet (admissionStep s now).apps k = none := by
  unfold admissionStep
  by_cases hcap : s.maxConcurrentApps ≤ s.apps.length
  · simp only [if_pos hcap]
    cases hold : findOldestAppId s.apps now with
    | none => exact h
    | some oldest => exact cleanup_mapGet_none s oldest k h
  · simp only [if_neg hcap]
    exact h

/-- Claim C8: when launching the backing listener fails, the failure is
surfaced to the caller with the underlying cause, the scanned port is
not left tracked in `usedPorts`, the manager state is exactly the state
after the admission step (no retry takes place), and no entry for the
app identifier is added to the apps map. -/
theorem c8_launch_failure (s : ManagerState) (appId : String) (a : UserApp)
    (now : Nat) (probe : Nat → Bool) (launch : Nat → Except String Unit)
    (port : Nat) (cause : String)
    (hport : findAvailablePort (admissionStep s now).usedPorts probe
      10001 10100 = Except.ok port)
    (hlaunch : launch port = Except.error cause) :
    createAppServer s appId a now probe launch =
      (Except.error cause, admissionStep s now) ∧
    port ∉ (createAppServer s appId a now probe launch).2.usedPorts ∧
    (mapGet s.apps appId = none →
      mapGet (createAppServer s appId a now probe launch).2.apps appId = none) := by
  have hcreate : createAppServer s appId a now probe launch =
      (Except.error cause, admissionStep s now) := by
    simp only [createAppServer, hport, hlaunch]
  obtain ⟨_, _, hnot, _⟩ :=
    findAvailablePort_ok_spec (admissionStep s now).usedPorts probe
      10001 10100 port hport
  refine ⟨hcreate, ?_, ?_⟩
  · rw [hcreate]
    exact hnot
  · intro hfresh
    rw [hcreate]
    exact admission_mapGet_none s now appId hfresh

theorem c8_launch_failure_witness :
    createAppServer (initState 3) "w" (uApp "w" 0) 0 probeFree launchBoom =
      (Except.error "listen failure", admissionStep (initState 3) 0) ∧
    10001 ∉ (createAppServer (initState 3) "w" (uApp "w" 0) 0 probeFree
      launchBoom).2.usedPorts ∧
    (mapGet (initState 3).apps "w" = none →
      mapGet (createAppServer (initState 3) "w" (uApp "w" 0) 0 probeFree
        launchBoom).2.apps "w" = none) :=
  c8_launch_failure (initState 3) "w" (uApp "w" 0) 0 probeFree launchBoom
    10001 "listen failure" rfl rfl

/-- Claim C7: for an inbound preview request whose app identifier is not
resident, the route performs at most one rehydration attempt; when the
stored app definition is missing or expired the outcome is the
not-found response with no rehydration attempt; when it is present and
unexpired the full creation sequence runs exactly once and the request
is answered with a single redirect to the original URL (the one retry),
or the server-error response when the creation sequence fails. -/
theorem c7_route_rehydration (s : ManagerState) (appId : String)
    (store : List (String × (UserApp × Nat))) (now : Nat)
    (probe : Nat → Bool) (launch : Nat → Except String Unit)
    (originalUrl : String) :
    (previewRoute s appId store now probe launch originalUrl).rehydrations ≤ 1 ∧
    (getAppPort s appId = none →
      (memoryGet store ("app:" ++ appId) now = none →
        previewRoute s appId store now probe launch originalUrl =
          { outcome := RouteOutcome.notFound, state := s, rehydrations := 0 }) ∧
      (∀ a, memoryGet store ("app:" ++ appId) now = some a →
        (∀ r s2, createAppServer s appId a now probe launch = (Except.ok r, s2) →
          previewRoute s appId store now probe launch originalUrl =
            { outcome := RouteOutcome.redirectTo originalUrl, state := s2,
              rehydrations := 1 }) ∧
        (∀ e s2, createAppServer s appId a now probe launch =
            (Except.error e, s2) →
          previewRoute s appId store now probe launch originalUrl =
            { outcome := RouteOutcome.serverError, state := s2,
              rehydrations := 1 }))) := by
  constructor
  · cases hga : getAppPort s appId with
    | some port => simp [previewRoute, hga]
    | none =>
      cases hmg : memoryGet store ("app:" ++ appId) now with
      | none => simp [previewRoute, hga, hmg]
      | some a =>
        cases hc : createAppServer s appId a now probe launch with
        | mk r s2 =>
          cases r with
          | error e => simp [previewRoute, hga, hmg, hc]
          | ok v => simp [previewRoute, hga, hmg, hc]
  · intro hga
    refine ⟨?_, ?_⟩
    · intro hmg
      simp only [previewRoute, hga, hmg]
    · intro a hmg
      refine ⟨?_, ?_⟩
      · intro r s2 hc
        simp only [previewRoute, hga, hmg, hc]
      · intro e s2 hc
        simp only [previewRoute, hga, hmg, hc]

theorem c7_route_rehydration_witness :
    previewRoute (initState 5) "z" c7Store 100 probeFree launchOk "/preview/z" =
      { outcome := RouteOutcome.redirectTo "/preview/z", state := c7NewState,
        rehydrations := 1 } :=
  (((c7_route_rehydration (initState 5) "z" c7Store 100 probeFree launchOk
    "/preview/z").2 rfl).2 (uApp "z" 0) rfl).1
    (10001, "http://localhost:" ++ toString 10001) c7NewState rfl

theorem embed_url_ne_empty (sandboxId suffix : String) :
    "https://codesandbox.io/embed/" ++ sandboxId ++ suffix ≠ "" := by
  intro h
  have hlen := congrArg String.length h
  rw [String.length_append, String.length_append] at hlen
  have hpos : 0 < "https://codesandbox.io/embed/".length := by decide
  rw [show ("" : String).length = 0 from rfl] at hlen
  omega

set_option maxRecDepth 4000 in
/-- Claim C10: `createStackBlitzPreview` never throws — every internal
failure (the sandbox SDK call throwing, or the returned sandbox missing
an id) yields a returned result with `success = false`, a present error
message, and empty `previewUrl` and `embedHtml`; on success the result
carries `success = true` and a non-empty `previewUrl`. -/
theorem c10_preview_result (html css js : String)
    (files : List (String × String)) (projectId : String)
    (sdkCreate : List (String × SandboxFile) → Except String (Option String)) :
    ((createStackBlitzPreview html css js files projectId sdkCreate).success
        = false →
      (createStackBlitzPreview html css js files projectId sdkCreate).previewUrl
          = "" ∧
      (createStackBlitzPreview html css js files projectId sdkCreate).embedHtml
          = "" ∧
      (createStackBlitzPreview html css js files projectId
        sdkCreate).error.isSome = true) ∧
    ((createStackBlitzPreview html css js files projectId sdkCreate).success
        = true →
      (createStackBlitzPreview html css js files projectId sdkCreate).previewUrl
          ≠ "") ∧
    (∀ e, sdkCreate (sandboxFilesFor html css js projectId files) =
        Except.error e →
      (createStackBlitzPreview html css js files projectId sdkCreate).success
          = false ∧
      (createStackBlitzPreview html css js files projectId sdkCreate).error
          = some e) ∧
    (sdkCreate (sandboxFilesFor html css js projectId files) = Except.ok none →
      (createStackBlitzPreview html css js files projectId sdkCreate).success
          = false ∧
      (createStackBlitzPreview html css js files projectId sdkCreate).error
          = some "Failed to get sandbox ID from CodeSandbox") := by
  cases hs : sdkCreate (sandboxFilesFor html css js projectId files) with
  | error e =>
    have hc : createStackBlitzPreview html css js files projectId sdkCreate =
        { success := false, previewUrl := "", embedHtml := "",
          error := some e, projectId := none, sandboxId := none } := by
      simp only [createStackBlitzPreview, hs]
    refine ⟨?_, ?_, ?_, ?_⟩
    · intro _
      rw [hc]
      exact ⟨rfl, rfl, rfl⟩
    · intro hsucc
      rw [hc] at hsucc
      cases hsucc
    · intro e2 he2
      cases he2
      rw [hc]
      exact ⟨rfl, rfl⟩
    · intro hnone
      cases hnone
  | ok osid =>
    cases osid with
    | none =>
      have hc : createStackBlitzPreview html css js files projectId sdkCreate =
          { success := false, previewUrl := "", embedHtml := "",
            error := some "Failed to get sandbox ID from CodeSandbox",
            projectId := none, sandboxId := none } := by
        simp only [createStackBlitzPreview, hs]
      refine ⟨?_, ?_, ?_, ?_⟩
      · intro _
        rw [hc]
        exact ⟨rfl, rfl, rfl⟩
      · intro hsucc
        rw [hc] at hsucc
        cases hsucc
      · intro e2 he2
        cases he2
      · intro _
        rw [hc]
        exact ⟨rfl, rfl⟩
    | some sid =>
      have hc : createStackBlitzPreview html css js files projectId sdkCreate =
          { success := true,
            previewUrl := "https://codesandbox.io/embed/" ++ sid ++
              "?view=preview&hidenavigation=1&fontsize=12&codemirror=1",
            embedHtml := embedHtmlFor ("https://codesandbox.io/embed/" ++ sid ++
              "?view=preview&hidenavigation=1&fontsize=12&codemirror=1"),
            error := none, projectId := some projectId,
            sandboxId := some sid } := by
        simp only [createStackBlitzPreview, hs]
      refine ⟨?_, ?_, ?_, ?_⟩
      · intro hsucc
        rw [hc] at hsucc
        cases hsucc
      · intro _
        rw [hc]
        exact embed_url_ne_empty sid
          "?view=preview&hidenavigation=1&fontsize=12&codemirror=1"
      · intro e2 he2
        cases he2
      · intro hnone
        simp at hnone

theorem c10_preview_result_witness :
    ((createStackBlitzPreview "" "" "" [] "preview-1"
        (fun _ => Except.ok (some "sbx1"))).previewUrl ≠ "") ∧
    ((createStackBlitzPreview "" "" "" [] "preview-1"
        (fun _ => Except.error "sdk down")).previewUrl = "" ∧
      (createStackBlitzPreview "" "" "" [] "preview-1"
        (fun _ => Except.error "sdk down")).embedHtml = "" ∧
      (createStackBlitzPreview "" "" "" [] "preview-1"
        (fun _ => Except.error "sdk down")).error.isSome = true) :=
  ⟨(c10_preview_result "" "" "" [] "preview-1"
      (fun _ => Except.ok (some "sbx1"))).2.1 rfl,
   (c10_preview_result "" "" "" [] "preview-1"
      (fun _ => Except.error "sdk down")).1 rfl⟩

/-- Claim C1, counterexample: with `maxConcurrentApps = 1`, creating
`a` and then `b` in the same millisecond (both creation timestamps
equal to the admission time) yields a reachable state holding two live
instances — the live-instance count exceeds the maximum because the
admission scan only evicts an instance whose creation timestamp is
strictly below `Date.now()`. -/
theorem c1_counterexample :
    ReachableP anyCreate c1StateB ∧
    c1StateB.maxConcurrentApps < c1StateB.apps.length :=
  ⟨ReachableP.create c1StateA "b" (uApp "b" 100) 100 probeFree launchOk
      True.intro
      (ReachableP.create (initState 1) "a" (uApp "a" 100) 100 probeFree launchOk
        True.intro (ReachableP.init 1)),
   by decide⟩

/-- Claim C2, counterexample: a reachable state (two `createAppServer`
calls for the same identifier) in which port 10001 is tracked in
`usedPorts` while no entry of the apps map holds it — the claimed
if-and-only-if correspondence fails. -/
theorem c2_counterexample :
    ReachableP anyCreate c2StateB ∧
    10001 ∈ c2StateB.usedPorts ∧
    c2StateB.apps = [("a", ⟨10002, uApp "a" 100⟩)] :=
  ⟨ReachableP.create c2StateA "a" (uApp "a" 100) 100 probeFree launchOk
      True.intro
      (ReachableP.create (initState 5) "a" (uApp "a" 100) 100 probeFree launchOk
        True.intro (ReachableP.init 5)),
   by decide, by decide⟩

/-- Claim C6, counterexample: the instance `x` is resident with an
armed expiry timer; reclaiming it early removes the registry entry but
leaves the timer armed — reclamation does not cancel the still-armed
expiry timer, so cancellation never precedes firing. -/
theorem c6_counterexample :
    (mapGet c6State.apps "x").isSome = true ∧
    c6State.timers = [("x", 1000)] ∧
    mapGet (cleanupAppServer c6State "x").apps "x" = none ∧
    (cleanupAppServer c6State "x").timers = [("x", 1000)] :=
  ⟨by decide, by decide, by decide, by decide⟩

/-- Claim C6 as amended: reclamation never cancels a pending expiry
timer — `cleanupAppServer` leaves the pending-timer set untouched;
instead the design relies on reclamation being idempotent: a timer
that later fires for an identifier that is no longer resident leaves
the apps map and the port set unchanged. -/
theorem c6_no_cancellation (s : ManagerState) (appId : String)
    (t : String × Nat) :
    (cleanupAppServer s appId).timers = s.timers ∧
    (mapGet s.apps t.1 = none →
      (fireTimer s t).apps = s.apps ∧
      (fireTimer s t).usedPorts = s.usedPorts) := by
  constructor
  · unfold cleanupAppServer
    split
    · rfl
    · rfl
  · intro h
    unfold fireTimer
    by_cases hm : t ∈ s.timers
    · rw [if_pos hm, cleanup_of_not_resident s t.1 h]
      exact ⟨rfl, rfl⟩
    · rw [if_neg hm]
      exact ⟨rfl, rfl⟩

theorem c6_no_cancellation_witness :
    (cleanupAppServer c6State "x").timers = c6State.timers ∧
    (fireTimer (cleanupAppServer c6State "x") ("x", 1000)).apps =
      (cleanupAppServer c6State "x").apps ∧
    (fireTimer (cleanupAppServer c6State "x") ("x", 1000)).usedPorts =
      (cleanupAppServer c6State "x").usedPorts :=
  ⟨(c6_no_cancellation c6State "x" ("x", 1000)).1,
   (c6_no_cancellation (cleanupAppServer c6State "x") "x" ("x", 1000)).2
     (by decide)⟩

theorem cleanup_max_eq (s : ManagerState) (i : String) :
    (cleanupAppServer s i).maxConcurrentApps = s.maxConcurrentApps := by
  unfold cleanupAppServer
  split
  · rfl
  · rfl

theorem fire_max_eq (s : ManagerState) (t : String × Nat) :
    (fireTimer s t).maxConcurrentApps = s.maxConcurrentApps := by
  unfold fireTimer
  split
  · exact cleanup_max_eq s t.1
  · rfl

theorem admission_max_eq (s : ManagerState) (now : Nat) :
    (admissionStep s now).maxConcurrentApps = s.maxConcurrentApps := by
  unfold admissionStep
  by_cases hcap : s.maxConcurrentApps ≤ s.apps.length
  · rw [if_pos hcap]
    cases h : findOldestAppId s.apps now with
    | none => rfl
    | some oldest => exact cleanup_max_eq s oldest
  · rw [if_neg hcap]

theorem create_max_eq (s : ManagerState) (appId : String) (a : UserApp)
    (now : Nat) (probe : Nat → Bool) (launch : Nat → Except String Unit) :
    ((createAppServer s appId a now probe launch).2).maxConcurrentApps =
      s.maxConcurrentApps := by
  cases hp : findAvailablePort (admissionStep s now).usedPorts probe
      10001 10100 with
  | error e =>
    simp only [createAppServer, hp]
    exact admission_max_eq s now
  | ok port =>
    cases hl : launch port with
    | error c =>
      simp only [createAppServer, hp, hl]
      exact admission_max_eq s now
    | ok u =>
      simp only [createAppServer, hp, hl]
      exact admission_max_eq s now

theorem mapSet_length_le {α : Type} (m : List (String × α)) (k : String)
    (v : α) : (mapSet m k v).length ≤ m.length + 1 := by
  induction m with
  | nil => simp [mapSet]
  | cons kv rest ih =>
    unfold mapSet
    by_cases h : (kv.1 == k) = true
    · rw [if_pos h]
      simp
    · rw [if_neg h]
      simpa using Nat.succ_le_succ ih

theorem filter_length_lt {α : Type} (l : List α) (p : α → Bool) (a : α)
    (ha : a ∈ l) (hp : p a = false) : (l.filter p).length < l.length := by
  induction l with
  | nil => cases ha
  | cons hd rest ih =>
    rw [List.filter_cons]
    rcases List.mem_cons.mp ha with h | h
    · subst h
      rw [hp, if_neg Bool.false_ne_true]
      exact Nat.lt_succ_of_le (List.length_filter_le p rest)
    · by_cases hh : p hd = true
      · rw [if_pos hh]
        exact Nat.succ_lt_succ (ih h)
      · rw [if_neg hh]
        exact Nat.lt_succ_of_lt (ih h)

theorem cleanup_length_le (s : ManagerState) (i : String) :
    (cleanupAppServer s i).apps.length ≤ s.apps.length := by
  unfold cleanupAppServer
  cases h : mapGet s.apps i with
  | none => exact Nat.le_refl _
  | some e => exact List.length_filter_le _ _

theorem fire_length_le (s : ManagerState) (t : String × Nat) :
    (fireTimer s t).apps.length ≤ s.apps.length := by
  unfold fireTimer
  split
  · exact cleanup_length_le s t.1
  · exact Nat.le_refl _

theorem mapGet_some_mem {α : Type} (m : List (String × α)) (k : String)
    (v : α) (h : mapGet m k = some v) :
    ∃ x ∈ m, (x.1 == k) = true ∧ x.2 = v := by
  unfold mapGet at h
  cases hf : m.find? (fun kv => kv.1 == k) with
  | none => rw [hf] at h; cases h
  | some x =>
    rw [hf] at h
    cases h
    have hp := List.find?_some hf
    exact ⟨x, List.mem_of_find?_eq_some hf, hp, rfl⟩

theorem mapGet_isSome_of_mem {α : Type} (m : List (String × α))
    (x : String × α) (hx : x ∈ m) : (mapGet m x.1).isSome = true := by
  unfold mapGet
  cases hf : m.find? (fun kv => kv.1 == x.1) with
  | none =>
    have hnone := List.find?_eq_none.mp hf x hx
    simp at hnone
  | some y => rfl

theorem cleanup_length_lt (s : ManagerState) (i : String) (e : AppEntry)
    (h : mapGet s.apps i = some e) :
    (cleanupAppServer s i).apps.length < s.apps.length := by
  unfold cleanupAppServer
  rw [h]
  obtain ⟨x, hx, hpred, _⟩ := mapGet_some_mem s.apps i e h
  exact filter_length_lt s.apps _ x hx (by simp_all)

theorem create_state_cases (s : ManagerState) (appId : String) (a : UserApp)
    (now : Nat) (probe : Nat → Bool) (launch : Nat → Except String Unit) :
    (createAppServer s appId a now probe launch).2 = admissionStep s now ∨
    ∃ port, port ∉ (admissionStep s now).usedPorts ∧
      (createAppServer s appId a now probe launch).2 =
        registerApp (admissionStep s now) appId a now port := by
  cases hp : findAvailablePort (admissionStep s now).usedPorts probe
      10001 10100 with
  | error e =>
    left
    simp only [createAppServer, hp]
  | ok port =>
    cases hl : launch port with
    | error c =>
      left
      simp only [createAppServer, hp, hl]
    | ok u =>
      obtain ⟨_, _, hnot, _⟩ :=
        findAvailablePort_ok_spec (admissionStep s now).usedPorts probe
          10001 10100 port hp
      right
      refine ⟨port, hnot, ?_⟩
      simp only [createAppServer, hp, hl]

theorem create_length_le (s : ManagerState) (appId : String) (a : UserApp)
    (now : Nat) (probe : Nat → Bool) (launch : Nat → Except String Unit)
    (hmax : 1 ≤ s.maxConcurrentApps)
    (hlen : s.apps.length ≤ s.maxConcurrentApps)
    (hstrict : ∀ kv ∈ s.apps, kv.2.app.createdAt < now) :
    ((createAppServer s appId a now probe launch).2).apps.length ≤
      s.maxConcurrentApps := by
  by_cases hcap : s.maxConcurrentApps ≤ s.apps.length
  · have hne : s.apps ≠ [] := by
      intro hnil
      rw [hnil] at hcap
      simp at hcap
      omega
    have hsome : findOldestAppId s.apps now ≠ none := by
      intro hn
      have hall := (findOldestAppId_none_iff s.apps now).mp hn
      obtain ⟨kv, hkv⟩ := List.exists_mem_of_ne_nil s.apps hne
      have h1 := hstrict kv hkv
      have h2 := hall kv hkv
      omega
    obtain ⟨k, hk⟩ := Option.ne_none_iff_exists'.mp hsome
    have hadm : admissionStep s now = cleanupAppServer s k := by
      unfold admissionStep
      rw [if_pos hcap, hk]
    obtain ⟨e, l1, l2, heq, _, _, _⟩ := findOldestAppId_some_spec s.apps now k hk
    have hmem : ((k, e) : String × AppEntry) ∈ s.apps := by
      rw [heq]
      exact List.mem_append.mpr (Or.inr (List.mem_cons_self (k, e) l2))
    have hres := mapGet_isSome_of_mem s.apps (k, e) hmem
    obtain ⟨e2, he2⟩ := Option.isSome_iff_exists.mp hres
    have hlt := cleanup_length_lt s k e2 he2
    rcases create_state_cases s appId a now probe launch with hceq | ⟨port, _, hceq⟩
    · rw [hceq, hadm]
      omega
    · rw [hceq, hadm]
      have hms := mapSet_length_le (cleanupAppServer s k).apps appId
        ({ port := port, app := a } : AppEntry)
      show (mapSet (cleanupAppServer s k).apps appId
        { port := port, app := a }).length ≤ s.maxConcurrentApps
      omega
  · have hadm : admissionStep s now = s := by
      unfold admissionStep
      rw [if_neg hcap]
    have hlt2 : s.apps.length < s.maxConcurrentApps := Nat.lt_of_not_le hcap
    rcases create_state_cases s appId a now probe launch with hceq | ⟨port, _, hceq⟩
    · rw [hceq, hadm]
      exact hlen
    · rw [hceq, hadm]
      have hms := mapSet_length_le s.apps appId
        ({ port := port, app := a } : AppEntry)
      show (mapSet s.apps appId { port := port, app := a }).length ≤
        s.maxConcurrentApps
      omega

/-- Claim C1 as amended: provided the configured maximum is at least 1
and every creation happens strictly later (by the millisecond clock)
than the creation timestamps of all currently registered instances, the
live-instance count never exceeds `maxConcurrentApps` over any sequence
of creations, cleanups and timer firings; without that strictness
condition the eviction scan can find no victim and the count can exceed
the maximum (see the counterexample). -/
theorem c1_capacity_invariant (s : ManagerState)
    (hreach : ReachableP strictlyOlderResidents s)
    (hmax : 1 ≤ s.maxConcurrentApps) :
    s.apps.length ≤ s.maxConcurrentApps := by
  induction hreach with
  | init maxApps => simp [initState]
  | create s appId a now probe launch hpre hs ih =>
    rw [create_max_eq] at hmax ⊢
    exact create_length_le s appId a now probe launch hmax (ih hmax) hpre
  | cleanup s appId hs ih =>
    rw [cleanup_max_eq] at hmax ⊢
    exact Nat.le_trans (cleanup_length_le s appId) (ih hmax)
  | fire s t hs ih =>
    rw [fire_max_eq] at hmax ⊢
    exact Nat.le_trans (fire_length_le s t) (ih hmax)

theorem c1_capacity_invariant_witness :
    c1WitnessState.apps.length ≤ c1WitnessState.maxConcurrentApps :=
  c1_capacity_invariant c1WitnessState
    (ReachableP.create (initState 2) "a" (uApp "a" 50) 100 probeFree launchOk
      (fun kv hkv => absurd hkv (List.not_mem_nil kv)) (ReachableP.init 2))
    (by decide)

theorem key_unique (m : List (String × AppEntry)) (hkeys : keysPairwise m)
    (x y : String × AppEntry) (hx : x ∈ m) (hy : y ∈ m) (hk : x.1 = y.1) :
    x = y := by
  by_contra hne
  have hsymm : Symmetric (fun u v : String × AppEntry => u.1 ≠ v.1) :=
    fun u v h => fun hc => h hc.symm
  exact List.Pairwise.forall hsymm hkeys hx hy hne hk

theorem port_unique (m : List (String × AppEntry)) (hports : portsPairwise m)
    (x y : String × AppEntry) (hx : x ∈ m) (hy : y ∈ m)
    (hne : x ≠ y) : x.2.port ≠ y.2.port := by
  have hsymm : Symmetric (fun u v : String × AppEntry => u.2.port ≠ v.2.port) :=
    fun u v h => fun hc => h hc.symm
  exact List.Pairwise.forall hsymm hports hx hy hne

theorem mem_mapDelete_iff (m : List (String × AppEntry)) (i : String)
    (kv : String × AppEntry) :
    kv ∈ mapDelete m i ↔ kv ∈ m ∧ kv.1 ≠ i := by
  unfold mapDelete
  rw [List.mem_filter]
  simp

theorem cleanup_portInvariant (s : ManagerState) (i : String)
    (h : PortInvariant s) : PortInvariant (cleanupAppServer s i) := by
  obtain ⟨hkeys, hiff, hports⟩ := h
  unfold cleanupAppServer
  cases hg : mapGet s.apps i with
  | none => exact ⟨hkeys, hiff, hports⟩
  | some e =>
    obtain ⟨x, hxmem, hxpred, hxval⟩ := mapGet_some_mem s.apps i e hg
    have hx1 : x.1 = i := by simpa using hxpred
    refine ⟨?_, ?_, ?_⟩
    · show keysPairwise (mapDelete s.apps i)
      exact List.Pairwise.sublist (List.filter_sublist s.apps) hkeys
    · intro p
      show p ∈ releasePort s.usedPorts e.port ↔
        ∃ kv ∈ mapDelete s.apps i, kv.2.port = p
      unfold releasePort
      rw [Finset.mem_erase]
      constructor
      · rintro ⟨hpne, hpmem⟩
        obtain ⟨kv, hkv, hkvport⟩ := (hiff p).mp hpmem
        refine ⟨kv, (mem_mapDelete_iff s.apps i kv).mpr ⟨hkv, ?_⟩, hkvport⟩
        intro hkv1
        have hkvx : kv = x := key_unique s.apps hkeys kv x hkv hxmem
          (by rw [hkv1, hx1])
        rw [hkvx, hxval] at hkvport
        exact hpne hkvport.symm
      · rintro ⟨kv, hkv, hkvport⟩
        obtain ⟨hkvin, hkv1⟩ := (mem_mapDelete_iff s.apps i kv).mp hkv
        refine ⟨?_, (hiff p).mpr ⟨kv, hkvin, hkvport⟩⟩
        have hne : kv ≠ x := fun hc => hkv1 (by rw [hc, hx1])
        have hpne := port_unique s.apps hports kv x hkvin hxmem hne
        rw [hkvport, hxval] at hpne
        exact hpne
    · show portsPairwise (mapDelete s.apps i)
      exact List.Pairwise.sublist (List.filter_sublist s.apps) hports

theorem fire_portInvariant (s : ManagerState) (t : String × Nat)
    (h : PortInvariant s) : PortInvariant (fireTimer s t) := by
  unfold fireTimer
  split
  · exact cleanup_portInvariant s t.1 h
  · exact h

theorem admission_portInvariant (s : ManagerState) (now : Nat)
    (h : PortInvariant s) : PortInvariant (admissionStep s now) := by
  unfold admissionStep
  by_cases hcap : s.maxConcurrentApps ≤ s.apps.length
  · rw [if_pos hcap]
    cases hold : findOldestAppId s.apps now with
    | none => exact h
    | some oldest => exact cleanup_portInvariant s oldest h
  · rw [if_neg hcap]
    exact h

theorem mapSet_of_mapGet_none {α : Type} (m : List (String × α)) (k : String)
    (v : α) (h : mapGet m k = none) : mapSet m k v = m ++ [(k, v)] := by
  induction m with
  | nil => rfl
  | cons kv rest ih =>
    have h2 := (mapGet_eq_none_iff _ _).mp h
    have hk : (kv.1 == k) = false := by
      have := h2 kv (List.mem_cons_self kv rest)
      simpa using this
    unfold mapSet
    rw [if_neg (by simp [hk])]
    rw [List.cons_append]
    congr 1
    apply ih
    apply (mapGet_eq_none_iff _ _).mpr
    intro kv2 hkv2
    exact h2 kv2 (List.mem_cons_of_mem _ hkv2)

theorem registerApp_portInvariant (s1 : ManagerState) (appId : String)
    (a : UserApp) (now port : Nat) (h : PortInvariant s1)
    (hfresh : mapGet s1.apps appId = none) (hport : port ∉ s1.usedPorts) :
    PortInvariant (registerApp s1 appId a now port) := by
  obtain ⟨hkeys, hiff, hports⟩ := h
  have happend : mapSet s1.apps appId { port := port, app := a } =
      s1.apps ++ [(appId, { port := port, app := a })] :=
    mapSet_of_mapGet_none s1.apps appId _ hfresh
  have hkeysnot : ∀ kv ∈ s1.apps, kv.1 ≠ appId :=
    (mapGet_eq_none_iff s1.apps appId).mp hfresh
  have hportsnot : ∀ kv ∈ s1.apps, kv.2.port ≠ port := by
    intro kv hkv hc
    exact hport ((hiff port).mpr ⟨kv, hkv, hc⟩)
  refine ⟨?_, ?_, ?_⟩
  · show keysPairwise (mapSet s1.apps appId { port := port, app := a })
    unfold keysPairwise
    rw [happend, List.pairwise_append]
    refine ⟨hkeys, List.pairwise_singleton _ _, ?_⟩
    intro u hu v hv
    rw [List.mem_singleton] at hv
    subst hv
    exact hkeysnot u hu
  · intro p
    show p ∈ insert port s1.usedPorts ↔
      ∃ kv ∈ mapSet s1.apps appId { port := port, app := a }, kv.2.port = p
    rw [Finset.mem_insert, happend]
    constructor
    · rintro (hp | hp)
      · subst hp
        exact ⟨(appId, { port := p, app := a }),
          List.mem_append.mpr (Or.inr (List.mem_singleton.mpr rfl)), rfl⟩
      · obtain ⟨kv, hkv, hkvp⟩ := (hiff p).mp hp
        exact ⟨kv, List.mem_append.mpr (Or.inl hkv), hkvp⟩
    · rintro ⟨kv, hkv, hkvp⟩
      rcases List.mem_append.mp hkv with hkv | hkv
      · exact Or.inr ((hiff p).mpr ⟨kv, hkv, hkvp⟩)
      · rw [List.mem_singleton] at hkv
        subst hkv
        exact Or.inl hkvp.symm
  · show portsPairwise (mapSet s1.apps appId { port := port, app := a })
    unfold portsPairwise
    rw [happend, List.pairwise_append]
    refine ⟨hports, List.pairwise_singleton _ _, ?_⟩
    intro u hu v hv
    rw [List.mem_singleton] at hv
    subst hv
    exact hportsnot u hu

theorem create_portInvariant (s : ManagerState) (appId : String) (a : UserApp)
    (now : Nat) (probe : Nat → Bool) (launch : Nat → Except String Unit)
    (hfresh : mapGet s.apps appId = none) (h : PortInvariant s) :
    PortInvariant ((createAppServer s appId a now probe launch).2) := by
  have h1 : PortInvariant (admissionStep s now) :=
    admission_portInvariant s now h
  have hfresh1 : mapGet (admissionStep s now).apps appId = none :=
    admission_mapGet_none s now appId hfresh
  rcases create_state_cases s appId a now probe launch with hceq |
    ⟨port, hport, hceq⟩
  · rw [hceq]
    exact h1
  · rw [hceq]
    exact registerApp_portInvariant (admissionStep s now) appId a now port h1
      hfresh1 hport

/-- Claim C2 as amended: in every state reachable when `createAppServer`
is only invoked for identifiers not currently resident (which is how
both server code paths invoke it — they create fresh random ids or act
on a registry miss), a port is tracked in `usedPorts` exactly when some
entry of the apps map holds it, no two entries hold the same port, and
the port leaves `usedPorts` in the very step that removes its entry;
re-creating a still-resident identifier breaks the correspondence (see
the counterexample). -/
theorem c2_port_invariant (s : ManagerState)
    (hreach : ReachableP freshIdOnly s) :
    (∀ p : Nat, p ∈ s.usedPorts ↔ ∃ kv ∈ s.apps, kv.2.port = p) ∧
    portsPairwise s.apps := by
  have h : PortInvariant s := by
    induction hreach with
    | init maxApps =>
      refine ⟨List.Pairwise.nil, ?_, List.Pairwise.nil⟩
      intro p
      constructor
      · intro hp
        exact absurd hp (Finset.not_mem_empty p)
      · rintro ⟨kv, hkv, _⟩
        cases hkv
    | create s appId a now probe launch hpre hs ih =>
      exact create_portInvariant s appId a now probe launch hpre ih
    | cleanup s appId hs ih => exact cleanup_portInvariant s appId ih
    | fire s t hs ih => exact fire_portInvariant s t ih
  exact ⟨h.2.1, h.2.2⟩

theorem c2_port_invariant_witness :
    (∀ p : Nat, p ∈ c2WitnessState.usedPorts ↔
      ∃ kv ∈ c2WitnessState.apps, kv.2.port = p) ∧
    portsPairwise c2WitnessState.apps :=
  c2_port_invariant c2WitnessState
    (ReachableP.create (initState 5) "a" (uApp "a" 100) 100 probeFree launchOk
      rfl (ReachableP.init 5))
